import Mathlib

/-!
Verification of `torchscope/saliency/backprop.py` (class `Backprop`).

The Python code wraps an external classifier: `__init__` registers a
backward hook (`_record_gradient`) on every `Conv2d` submodule with
`in_channels == 3`, and `calculate_gradient` runs one forward pass, seeds
one backward pass with a one-hot vector at `target_class`, and returns the
gradient captured by the hooks (optionally collapsed across channels by a
per-position maximum).

Shallow embedding choices:
* A tensor is its shape (list of dimension sizes) together with its data,
  flattened row-major into a list of rationals.
* The wrapped network is an external collaborator: a list of submodules in
  `named_modules` traversal order, a pure `forward` function, and a
  `backwardTrace` giving the sequence of gradient events (module,
  `grad_in[0]`) observed during a backward pass for a given input and seed.
  A hook registered on a module fires at each event carrying that module.
* Python-level tensor-object state that matters to callers (the
  `requires_grad` flag, the device) lives in `PTensor`; `.to(device)`
  returns the same object exactly when the tensor is already on the device,
  which is what makes the `requires_grad = True` assignment visible to the
  caller in that case.
* Failing operations (out-of-range indexing, `shape[-1]` of a 0-dim
  tensor, `max` over an empty dimension) return `Except`/`Option` errors.
-/

/-- A tensor: its shape and its row-major flattened data. -/
structure Tensor where
  shape : List Nat
  data : List ℚ
deriving DecidableEq

/-- Embeds `torch.zeros(shape)`. -/
def Tensor.zeros (shape : List Nat) : Tensor :=
  ⟨shape, List.replicate shape.prod 0⟩

/-- Element of the flattened data at a flat index (0 when out of range). -/
def Tensor.at2 (t : Tensor) (i : Nat) : ℚ :=
  t.data[i]?.getD 0

/-- Embeds Python `t[0]`: the first slice along the leading dimension.
Fails (IndexError) on a 0-dim tensor or an empty leading dimension. -/
def Tensor.index0 (t : Tensor) : Option Tensor :=
  match t.shape with
  | [] => none
  | b :: rest => if b = 0 then none else some ⟨rest, t.data.take rest.prod⟩

/-- Maximum of a list of rationals (head-seeded fold; 0 for an empty list,
which never occurs at use sites). -/
def listMax : List ℚ → ℚ
  | [] => 0
  | x :: xs => xs.foldl max x

/-- Embeds `t.max(dim=0, keepdim=True)[0]` on the values component: collapse
the leading (channel) dimension by a per-position maximum. Fails on a
0-dim tensor or an empty leading dimension, as torch does. -/
def Tensor.maxDim0 (t : Tensor) : Option Tensor :=
  match t.shape with
  | [] => none
  | c :: rest =>
    if c = 0 then none
    else
      some ⟨1 :: rest,
        (List.range rest.prod).map (fun j =>
          listMax ((List.range c).map (fun i => t.at2 (i * rest.prod + j))))⟩

/-- A submodule of the wrapped model, as seen by `_register_hooks`: an
identity (Python object identity), whether it is a `Conv2d`, and its
`in_channels` attribute. -/
structure NNModule where
  id : Nat
  isConv2d : Bool
  in_channels : Nat
deriving DecidableEq

/-- The predicate of `_register_hooks`:
`isinstance(module, nn.modules.conv.Conv2d) and module.in_channels == 3`. -/
def isTargetLayer (m : NNModule) : Bool :=
  m.isConv2d && m.in_channels == 3

/-- The external collaborator: the wrapped network together with the
reverse-mode autodiff engine. `backwardTrace input seed` is the sequence of
`(module, grad_in[0])` gradient events observed at submodule boundaries
during the backward pass `output.backward(gradient=seed)`. -/
structure NetModel where
  submodules : List NNModule
  forward : Tensor → Tensor
  backwardTrace : Tensor → Tensor → List (NNModule × Tensor)

/-- Embeds `Backprop._register_hooks`: the submodules that receive a
`_record_gradient` hook, in `named_modules` traversal order. -/
def hookedModules (net : NetModel) : List NNModule :=
  net.submodules.filter isTargetLayer

/-- Embeds the hook body `_record_gradient`: replace the captured buffer by
the incoming gradient exactly when the shapes agree. -/
def record_gradient (gradient grad_in0 : Tensor) : Tensor :=
  if gradient.shape = grad_in0.shape then grad_in0 else gradient

/-- The backward pass as seen by the hooks: fold the gradient events over
the captured buffer, applying `_record_gradient` at each event whose module
carries a hook. -/
def runBackward (hooked : List NNModule) (buf : Tensor)
    (events : List (NNModule × Tensor)) : Tensor :=
  events.foldl (fun b e => if e.1 ∈ hooked then record_gradient b e.2 else b) buf

/-- Embeds `self.gradient = torch.zeros(input_.shape)`: the captured-gradient
buffer reset at the start of each `calculate_gradient` call. -/
def initialGradientBuffer (input_ : Tensor) : Tensor :=
  Tensor.zeros input_.shape

/-- Embeds the seed construction
`target = torch.FloatTensor(1, n).zero_(); target[0][target_class] = 1`.
Python tensor indexing accepts `-n ≤ target_class < n` (negative indices
wrap); anything else raises IndexError, modelled as `none`. -/
def buildTarget (n : Nat) (target_class : Int) : Option Tensor :=
  if -(n : Int) ≤ target_class ∧ target_class < n then
    some ⟨[1, n],
      (List.range n).map (fun (j : Nat) =>
        if (j : Int) = (if target_class < 0 then target_class + n else target_class)
        then (1 : ℚ) else 0)⟩
  else none

/-- The tail of `calculate_gradient` after the backward pass:
`gradient = self.gradient.detach().cpu()[0]`, then the optional
`gradient.max(dim=0, keepdim=True)[0]` when `take_max` is set. -/
def afterBackward (gradFull : Tensor) (take_max : Bool) : Except String Tensor :=
  match gradFull.index0 with
  | none => .error "IndexError: index 0 out of bounds"
  | some gradient =>
    if take_max then
      match gradient.maxDim0 with
      | none => .error "IndexError: max over empty dimension"
      | some g => .ok g
    else .ok gradient

/-- The value computation of `Backprop.calculate_gradient` on the underlying
tensor: reset the buffer to `torch.zeros(input_.shape)`, run the forward
pass, build the one-hot seed over `output.shape[-1]` classes, run the
backward pass (during which the hooks update the buffer), then select
batch element 0 and optionally collapse channels. -/
def gradientCore (net : NetModel) (inp : Tensor) (target_class : Int)
    (take_max : Bool) : Except String Tensor :=
  match (net.forward inp).shape.getLast? with
  | none => .error "IndexError: shape index -1 on 0-dim tensor"
  | some n =>
    match buildTarget n target_class with
    | none => .error "IndexError: target_class out of range"
    | some target =>
      afterBackward
        (runBackward (hookedModules net) (initialGradientBuffer inp)
          (net.backwardTrace inp target))
        take_max

/-- Python-level tensor object state visible to the caller: the underlying
value, the `requires_grad` flag and the device string. -/
structure PTensor where
  tensor : Tensor
  requires_grad : Bool
  device : String
deriving DecidableEq

/-- The caller's input object right after `calculate_gradient` returns.
`input_ = input_.to(self._device)` returns the caller's own object exactly
when the tensor already lives on the compute device, in which case the
subsequent `input_.requires_grad = True` mutates it in place; otherwise the
caller's object is untouched. -/
def inputAfterCall (input_ : PTensor) (dev : String) : PTensor :=
  if input_.device = dev then { input_ with requires_grad := true } else input_

/-- Embeds `Backprop.calculate_gradient`, device string given by the
extractor's `self._device`. Returns the result (the gradient, or the raised
error) together with the caller-visible state of the input tensor object
after the call. -/
def calculate_gradient (net : NetModel) (dev : String) (input_ : PTensor)
    (target_class : Int) (take_max : Bool) : Except String Tensor × PTensor :=
  (gradientCore net input_.tensor target_class take_max, inputAfterCall input_ dev)

/-- Success test for a `calculate_gradient` result. -/
def isOkE : Except String Tensor → Bool
  | .ok _ => true
  | .error _ => false

/-- The number of times a registered hook fires during one backward pass:
the number of gradient events whose module carries a `_record_gradient`
hook. -/
def hookFireCount (net : NetModel) (inp seed : Tensor) : Nat :=
  ((net.backwardTrace inp seed).filter
    (fun e => decide (e.1 ∈ hookedModules net))).length

/-! ### Concrete fixtures used by counterexamples and witnesses -/

/-- View of an `Except` as a sum, to transport decidable equality. -/
def exceptToSum (e : Except String Tensor) : String ⊕ Tensor :=
  match e with
  | .error s => .inl s
  | .ok t => .inr t

instance : DecidableEq (Except String Tensor) := fun a b =>
  decidable_of_iff (exceptToSum a = exceptToSum b)
    (by cases a <;> cases b <;> simp [exceptToSum])

/-- A `Conv2d` submodule with 3 input channels (qualifies for a hook). -/
def conv3 : NNModule := ⟨0, true, 3⟩

/-- A non-convolutional submodule (e.g. a linear layer). -/
def lin : NNModule := ⟨1, false, 0⟩

/-- A `Conv2d` submodule with 1 input channel (does not qualify). -/
def conv1 : NNModule := ⟨2, true, 1⟩

/-- Gradient data observed at the qualifying convolution in the fixtures:
3 channels over a 2 times 2 spatial grid. -/
def gdataW : List ℚ := [0, 1, 2, 3, 5, 4, 1, 0, 2, 2, 2, 9]

/-- A concrete input image: shape (1, 3, 2, 2), on the cpu device. -/
def inpW : PTensor := ⟨⟨[1, 3, 2, 2], List.replicate 12 (1 : ℚ)⟩, false, "cpu"⟩

/-- A concrete model with exactly one qualifying convolution: two output
classes, and a backward trace that visits each submodule once (in reverse
order, as reverse-mode differentiation does). -/
def netW : NetModel :=
  ⟨[conv3, lin], fun _ => ⟨[1, 2], [0, 0]⟩,
    fun _ _ => [(lin, ⟨[1, 2], [0, 0]⟩), (conv3, ⟨[1, 3, 2, 2], gdataW⟩)]⟩

/-- A concrete model with no qualifying layer: its only convolution has 1
input channel, so `_register_hooks` attaches nothing, though the backward
pass still produces gradient events. -/
def netC4 : NetModel :=
  ⟨[conv1, lin], fun _ => ⟨[1, 2], [0, 0]⟩,
    fun _ _ => [(conv1, ⟨[1, 3, 2, 2], gdataW⟩)]⟩

/-- A minimal concrete model with two output classes and no submodules. -/
def netC5 : NetModel := ⟨[], fun _ => ⟨[1, 2], [0, 0]⟩, fun _ _ => []⟩

/-- A concrete input of shape (1, 1) for the boundary experiments. -/
def inpC5 : PTensor := ⟨⟨[1, 1], [0]⟩, false, "cpu"⟩

/-- A concrete model whose submodule list contains three convolutions, two
of which have 3 input channels (first and last), with a non-qualifying
convolution and a linear layer in between. -/
def netC2 : NetModel :=
  ⟨[⟨0, true, 3⟩, ⟨1, false, 3⟩, ⟨2, true, 1⟩, ⟨3, true, 3⟩],
    fun _ => ⟨[], []⟩, fun _ _ => []⟩

/-! ### Helper lemmas about the embedded operations -/

lemma le_foldl_max (xs : List ℚ) (a : ℚ) : a ≤ xs.foldl max a := by
  induction xs generalizing a with
  | nil => exact le_refl a
  | cons x xs ih => exact le_trans (le_max_left a x) (ih (max a x))

lemma mem_le_foldl_max (xs : List ℚ) (a x : ℚ) (h : x ∈ xs) : x ≤ xs.foldl max a := by
  induction xs generalizing a with
  | nil => cases h
  | cons y ys ih =>
    rcases List.mem_cons.mp h with rfl | hy
    · exact le_trans (le_max_right a x) (le_foldl_max ys (max a x))
    · exact ih (max a y) hy

lemma foldl_max_mem (xs : List ℚ) (a : ℚ) :
    xs.foldl max a = a ∨ xs.foldl max a ∈ xs := by
  induction xs generalizing a with
  | nil => exact Or.inl rfl
  | cons x xs ih =>
    show xs.foldl max (max a x) = a ∨ xs.foldl max (max a x) ∈ x :: xs
    rcases ih (max a x) with h | h
    · rcases max_choice a x with hm | hm
      · exact Or.inl (h.trans hm)
      · exact Or.inr (by rw [h, hm]; exact List.mem_cons_self x xs)
    · exact Or.inr (List.mem_cons_of_mem x h)

lemma le_listMax (l : List ℚ) (x : ℚ) (h : x ∈ l) : x ≤ listMax l := by
  cases l with
  | nil => cases h
  | cons y ys =>
    rcases List.mem_cons.mp h with rfl | hy
    · exact le_foldl_max ys x
    · exact mem_le_foldl_max ys y x hy

lemma listMax_mem (l : List ℚ) (h : l ≠ []) : listMax l ∈ l := by
  cases l with
  | nil => exact absurd rfl h
  | cons y ys =>
    show ys.foldl max y ∈ y :: ys
    rcases foldl_max_mem ys y with h' | h'
    · rw [h']; exact List.mem_cons_self y ys
    · exact List.mem_cons_of_mem y h'

lemma record_gradient_shape (b gi : Tensor) :
    (record_gradient b gi).shape = b.shape := by
  by_cases h : b.shape = gi.shape
  · rw [record_gradient, if_pos h]; exact h.symm
  · rw [record_gradient, if_neg h]

lemma runBackward_cons (hooked : List NNModule) (buf : Tensor)
    (e : NNModule × Tensor) (es : List (NNModule × Tensor)) :
    runBackward hooked buf (e :: es) =
      runBackward hooked (if e.1 ∈ hooked then record_gradient buf e.2 else buf) es := rfl

lemma runBackward_shape (hooked : List NNModule) (buf : Tensor)
    (events : List (NNModule × Tensor)) :
    (runBackward hooked buf events).shape = buf.shape := by
  induction events generalizing buf with
  | nil => rfl
  | cons e es ih =>
    rw [runBackward_cons, ih]
    split
    · exact record_gradient_shape buf e.2
    · rfl

lemma runBackward_no_hooks (buf : Tensor) (events : List (NNModule × Tensor)) :
    runBackward [] buf events = buf := by
  induction events generalizing buf with
  | nil => rfl
  | cons e es ih => rw [runBackward_cons, if_neg (List.not_mem_nil e.1), ih]

lemma index0_shape (t g : Tensor) (h : t.index0 = some g) :
    g.shape = t.shape.tail := by
  rcases hs : t.shape with _ | ⟨b, rest⟩
  · simp only [Tensor.index0, hs] at h; cases h
  · simp only [Tensor.index0, hs] at h
    by_cases hb : b = 0
    · rw [if_pos hb] at h; cases h
    · rw [if_neg hb] at h
      injection h with h
      rw [← h]; rfl

lemma index0_of_shape (t : Tensor) (b : Nat) (rest : List Nat)
    (h : t.shape = b :: rest) (hb : b ≠ 0) :
    t.index0 = some ⟨rest, t.data.take rest.prod⟩ := by
  simp only [Tensor.index0, h]
  rw [if_neg hb]

lemma buildTarget_of_range (n : Nat) (tc : Int) (h : -(n : Int) ≤ tc ∧ tc < n) :
    buildTarget n tc =
      some ⟨[1, n],
        (List.range n).map (fun (j : Nat) =>
          if (j : Int) = (if tc < 0 then tc + n else tc) then (1 : ℚ) else 0)⟩ := by
  rw [buildTarget, if_pos h]

lemma buildTarget_of_not_range (n : Nat) (tc : Int)
    (h : ¬(-(n : Int) ≤ tc ∧ tc < n)) : buildTarget n tc = none := by
  rw [buildTarget, if_neg h]

lemma inputAfterCall_tensor (p : PTensor) (dev : String) :
    (inputAfterCall p dev).tensor = p.tensor := by
  rw [inputAfterCall]; split <;> rfl

lemma maxDim0_spec (g g' : Tensor) (h : g.maxDim0 = some g') :
    g'.shape = 1 :: g.shape.tail ∧
    ∀ j < g.shape.tail.prod,
      (∀ c < g.shape.headD 0, g.at2 (c * g.shape.tail.prod + j) ≤ g'.at2 j) ∧
      ∃ c < g.shape.headD 0, g.at2 (c * g.shape.tail.prod + j) = g'.at2 j := by
  rcases hs : g.shape with _ | ⟨c, rest⟩
  · simp only [Tensor.maxDim0, hs] at h; cases h
  · simp only [Tensor.maxDim0, hs] at h
    by_cases hc : c = 0
    · rw [if_pos hc] at h; cases h
    · rw [if_neg hc] at h
      injection h with h
      subst h
      simp only [List.tail_cons, List.headD_cons]
      refine ⟨trivial, fun j hj => ?_⟩
      have hval : Tensor.at2
          ⟨1 :: rest, (List.range rest.prod).map (fun j =>
            listMax ((List.range c).map (fun i => g.at2 (i * rest.prod + j))))⟩ j =
          listMax ((List.range c).map (fun i => g.at2 (i * rest.prod + j))) := by
        simp only [Tensor.at2]
        rw [List.getElem?_map, List.getElem?_range hj]
        rfl
      rw [hval]
      constructor
      · intro c' hc'
        exact le_listMax _ _ (List.mem_map.mpr ⟨c', List.mem_range.mpr hc', rfl⟩)
      · have hne : (List.range c).map (fun i => g.at2 (i * rest.prod + j)) ≠ [] := by
          simp [List.range_eq_nil, hc]
        rcases List.mem_map.mp (listMax_mem _ hne) with ⟨i, hi, hieq⟩
        exact ⟨i, List.mem_range.mp hi, hieq⟩

lemma afterBackward_false_ok (gf g0 : Tensor)
    (h : afterBackward gf false = .ok g0) : gf.index0 = some g0 := by
  rw [afterBackward] at h
  rcases hi : gf.index0 with _ | gr
  · rw [hi] at h; cases h
  · rw [hi] at h
    simp only [Bool.false_eq_true, if_neg] at h
    injection h with h
    rw [h]

lemma afterBackward_true_of_false (gf g0 : Tensor)
    (h : afterBackward gf false = .ok g0) :
    afterBackward gf true =
      match g0.maxDim0 with
      | none => .error "IndexError: max over empty dimension"
      | some g => .ok g := by
  rw [afterBackward, afterBackward_false_ok gf g0 h]
  simp

lemma gradientCore_true_of_false (net : NetModel) (inp : Tensor) (tc : Int)
    (g0 : Tensor) (h : gradientCore net inp tc false = .ok g0) :
    gradientCore net inp tc true =
      match g0.maxDim0 with
      | none => .error "IndexError: max over empty dimension"
      | some g => .ok g := by
  rcases hL : (net.forward inp).shape.getLast? with _ | n
  · simp only [gradientCore, hL] at h; cases h
  · simp only [gradientCore, hL] at h ⊢
    rcases hT : buildTarget n tc with _ | t
    · simp only [hT] at h; simp at h
    · simp only [hT] at h ⊢
      exact afterBackward_true_of_false _ _ h


lemma gradientCore_false_shape (net : NetModel) (inp : Tensor) (tc : Int)
    (g : Tensor) (h : gradientCore net inp tc false = .ok g) :
    g.shape = inp.shape.tail := by
  rcases hL : (net.forward inp).shape.getLast? with _ | n
  · simp only [gradientCore, hL] at h; cases h
  · simp only [gradientCore, hL] at h
    rcases hT : buildTarget n tc with _ | t
    · simp only [hT] at h; simp at h
    · simp only [hT] at h
      have hi := afterBackward_false_ok _ _ h
      rw [index0_shape _ _ hi, runBackward_shape]
      rfl

lemma gradientCore_false_ok_of_shape (net : NetModel) (inp : Tensor) (tc : Int)
    (b : Nat) (rest : List Nat) (n : Nat)
    (hshape : inp.shape = b :: rest) (hb : b ≠ 0)
    (hn : (net.forward inp).shape.getLast? = some n)
    (htc : -(n : Int) ≤ tc ∧ tc < n) :
    isOkE (gradientCore net inp tc false) = true := by
  simp only [gradientCore, hn, buildTarget_of_range n tc htc]
  have hsh : (runBackward (hookedModules net) (initialGradientBuffer inp)
      (net.backwardTrace inp
        ⟨[1, n], (List.range n).map (fun (j : Nat) =>
          if (j : Int) = (if tc < 0 then tc + n else tc) then (1 : ℚ) else 0)⟩)).shape =
      b :: rest := by
    rw [runBackward_shape]; exact hshape
  rw [afterBackward, index0_of_shape _ b rest hsh hb]
  rfl

/-! ### The claims -/

/-- Claim C1, counterexample: for the concrete model `netW` (2 output
classes) and the concrete input `inpW` (shape 1,3,2,2), the captured
gradient buffer that `calculate_gradient` resets at the start of the call
(`self.gradient = torch.zeros(input_.shape)`) has the shape of the input
image, not the shape of the output score vector — refuting the claim that
it is shaped like the output score vector. -/
theorem c1_counterexample :
    (initialGradientBuffer inpW.tensor).shape ≠ (netW.forward inpW.tensor).shape ∧
    (initialGradientBuffer inpW.tensor).shape = inpW.tensor.shape := by
  decide

/-- Claim C1 (amended): at the start of every `calculate_gradient` call the
captured-gradient buffer is reset to a zero tensor whose shape equals the
*input image* (`torch.zeros(input_.shape)`), not the output score vector:
its shape is the input's shape, its size is the product of those
dimensions, and every entry is zero. -/
theorem c1_buffer_reset_to_input_shaped_zeros (t : Tensor) :
    (initialGradientBuffer t).shape = t.shape ∧
    (initialGradientBuffer t).data.length = t.shape.prod ∧
    (initialGradientBuffer t).data.all (fun x => x == 0) = true := by
  refine ⟨rfl, List.length_replicate _ _, ?_⟩
  rw [List.all_eq_true]
  intro x hx
  rw [List.eq_of_mem_replicate hx]
  rfl

/-- Claim C2: construction (`_register_hooks`) attaches a
gradient-observation hook to every submodule, in traversal order, that is a
`Conv2d` with exactly 3 input channels — not only the first such submodule.
The hooked list is a sublist of the traversal (order preserved), contains
every matching submodule, contains only matching submodules, and has one
entry per match. -/
theorem c2_hook_on_every_matching_submodule (net : NetModel) :
    (hookedModules net).Sublist net.submodules ∧
    (∀ m ∈ net.submodules, isTargetLayer m = true → m ∈ hookedModules net) ∧
    (∀ m ∈ hookedModules net, m ∈ net.submodules ∧ isTargetLayer m = true) ∧
    (hookedModules net).length = net.submodules.countP isTargetLayer := by
  refine ⟨List.filter_sublist _, ?_, ?_, (List.countP_eq_length_filter _ _).symm⟩
  · intro m hm ht
    exact List.mem_filter.mpr ⟨hm, ht⟩
  · intro m hm
    exact ⟨(List.mem_filter.mp hm).1, (List.mem_filter.mp hm).2⟩

/-- Witness for C2 at the concrete model `netC2`, whose submodule list has
two qualifying convolutions (first and fourth): both get a hook. -/
theorem c2_witness :
    (hookedModules netC2).length = 2 ∧
    (⟨3, true, 3⟩ : NNModule) ∈ hookedModules netC2 := by
  have h := c2_hook_on_every_matching_submodule netC2
  exact ⟨h.2.2.2.trans (by decide), h.2.1 ⟨3, true, 3⟩ (by decide) (by decide)⟩

/-- Claim C3: whenever both calls return, the `take_max=True` result has
exactly one channel (`shape = 1 :: spatial`) and, at every spatial position,
its value is the maximum over channels of the `take_max=False` result at
that position (an upper bound of every channel value, attained by some
channel). -/
theorem c3_take_max_is_channelwise_max (net : NetModel) (dev : String)
    (inp : PTensor) (tc : Int) (g0 g1 : Tensor)
    (h0 : (calculate_gradient net dev inp tc false).1 = .ok g0)
    (h1 : (calculate_gradient net dev inp tc true).1 = .ok g1) :
    g1.shape = 1 :: g0.shape.tail ∧
    ∀ j < g0.shape.tail.prod,
      (∀ c < g0.shape.headD 0, g0.at2 (c * g0.shape.tail.prod + j) ≤ g1.at2 j) ∧
      ∃ c < g0.shape.headD 0, g0.at2 (c * g0.shape.tail.prod + j) = g1.at2 j := by
  have h0' : gradientCore net inp.tensor tc false = .ok g0 := h0
  have h1' : gradientCore net inp.tensor tc true = .ok g1 := h1
  rw [gradientCore_true_of_false net inp.tensor tc g0 h0'] at h1'
  rcases hM : g0.maxDim0 with _ | g
  · rw [hM] at h1'; cases h1'
  · rw [hM] at h1'
    injection h1' with h1'
    rw [← h1']
    exact maxDim0_spec g0 g hM

/-- The full-channel gradient returned by `calculate_gradient` on the
fixture `netW`/`inpW`. -/
def gW0 : Tensor := ⟨[3, 2, 2], gdataW⟩

/-- The channel-collapsed gradient returned with `take_max` on the fixture
`netW`/`inpW`. -/
def gW1 : Tensor := ⟨[1, 2, 2], [5, 4, 2, 9]⟩

/-- Witness for C3 at the concrete model `netW` and input `inpW`. -/
theorem c3_witness : gW1.shape = 1 :: gW0.shape.tail :=
  (c3_take_max_is_channelwise_max netW "cpu" inpW 0 gW0 gW1 (by decide)
    (by decide)).1

/-- Claim C4: for a model with no qualifying layer (`hookedModules` empty),
`calculate_gradient` raises no error (given a well-formed input batch and a
valid target class) and returns the uniformly zero tensor of per-batch
shape. -/
theorem c4_no_qualifying_layer_returns_zeros (net : NetModel) (dev : String)
    (inp : PTensor) (tc : Int) (b : Nat) (rest : List Nat) (n : Nat)
    (hhook : hookedModules net = [])
    (hshape : inp.tensor.shape = b :: rest) (hb : b ≠ 0)
    (hn : (net.forward inp.tensor).shape.getLast? = some n)
    (htc : -(n : Int) ≤ tc ∧ tc < n) :
    (calculate_gradient net dev inp tc false).1 = .ok (Tensor.zeros rest) := by
  show gradientCore net inp.tensor tc false = _
  simp only [gradientCore, hn, buildTarget_of_range n tc htc]
  rw [hhook, runBackward_no_hooks]
  have hsh : (initialGradientBuffer inp.tensor).shape = b :: rest := hshape
  rw [afterBackward, index0_of_shape _ b rest hsh hb]
  show Except.ok _ = Except.ok _
  congr 1
  show (⟨rest, (List.replicate (inp.tensor.shape.prod) 0).take rest.prod⟩ : Tensor) = _
  rw [Tensor.zeros, List.take_replicate]
  rw [hshape, List.prod_cons,
    Nat.min_eq_left (Nat.le_mul_of_pos_left _ (Nat.pos_of_ne_zero hb))]

/-- Witness for C4 at the concrete model `netC4`, whose only convolution has
1 input channel (so no hook is registered), on the input `inpW`. -/
theorem c4_witness :
    (calculate_gradient netC4 "cpu" inpW 0 false).1 = .ok (Tensor.zeros [3, 2, 2]) :=
  c4_no_qualifying_layer_returns_zeros netC4 "cpu" inpW 0 1 [3, 2, 2] 2
    (by decide) rfl (by decide) (by decide) ⟨by decide, by decide⟩

/-- Claim C5, counterexample: the claim says the call fails exactly when
`target_class` is outside `0 ≤ target_class < num_classes`. On the concrete
model `netC5` (2 output classes), `target_class = -1` is outside that range
yet the call succeeds: Python tensor indexing wraps negative indices, so
`target[0][-1] = 1` is legal and no error is raised. -/
theorem c5_counterexample :
    ¬((0 : Int) ≤ -1) ∧
    isOkE (calculate_gradient netC5 "cpu" inpC5 (-1) false).1 = true := by
  decide

/-- Claim C5 (amended): with a well-formed input batch, the call (with
`take_max=False`) fails at seed construction/indexing exactly when
`target_class` is outside the Python-legal range
`-num_classes ≤ target_class < num_classes` (negative indices wrap); in
particular the boundary values 0 and `num_classes - 1` both succeed. -/
theorem c5_fails_iff_outside_python_range (net : NetModel) (dev : String)
    (inp : PTensor) (tc : Int) (b : Nat) (rest : List Nat) (n : Nat)
    (hshape : inp.tensor.shape = b :: rest) (hb : b ≠ 0)
    (hn : (net.forward inp.tensor).shape.getLast? = some n) :
    isOkE (calculate_gradient net dev inp tc false).1 = true ↔
      (-(n : Int) ≤ tc ∧ tc < n) := by
  constructor
  · intro hok
    by_contra hc
    have herr : gradientCore net inp.tensor tc false =
        .error "IndexError: target_class out of range" := by
      simp only [gradientCore, hn, buildTarget_of_not_range n tc hc]
    have : isOkE (gradientCore net inp.tensor tc false) = true := hok
    rw [herr] at this
    cases this
  · intro htc
    exact gradientCore_false_ok_of_shape net inp.tensor tc b rest n hshape hb hn htc

/-- Witness for C5 at the concrete model `netC5` (2 classes): the boundary
value `target_class = num_classes - 1 = 1` succeeds. -/
theorem c5_witness :
    isOkE (calculate_gradient netC5 "cpu" inpC5 1 false).1 = true :=
  (c5_fails_iff_outside_python_range netC5 "cpu" inpC5 1 1 [1] 2 rfl
    (by decide) (by decide)).mpr (by decide)

/-- Claim C6: for a valid target class, the seed built by
`calculate_gradient` is a fresh one-hot tensor of shape `(1, num_classes)`:
its data has length `num_classes`, holds 1.0 at the target index and 0.0 at
every other index; and the call runs exactly one backward pass seeded with
it (the result is the post-processing of the single `backwardTrace` run
seeded by this tensor). -/
theorem c6_seed_is_one_hot (n : Nat) (tc : Int) (t : Tensor)
    (h0 : 0 ≤ tc) (h1 : tc < n) (ht : buildTarget n tc = some t) :
    t.shape = [1, n] ∧ t.data.length = n ∧ t.at2 tc.toNat = 1 ∧
    (∀ j < n, j ≠ tc.toNat → t.at2 j = 0) ∧
    ∀ (net : NetModel) (inp : Tensor) (tm : Bool),
      (net.forward inp).shape.getLast? = some n →
      gradientCore net inp tc tm =
        afterBackward
          (runBackward (hookedModules net) (initialGradientBuffer inp)
            (net.backwardTrace inp t)) tm := by
  have hrange : -(n : Int) ≤ tc ∧ tc < n := ⟨le_trans (by simp) h0, h1⟩
  rw [buildTarget_of_range n tc hrange] at ht
  injection ht with ht
  subst ht
  refine ⟨rfl, by simp, ?_, ?_, ?_⟩
  · have hlt : tc.toNat < n := by omega
    show (((List.range n).map (fun (j : Nat) =>
        if (j : Int) = (if tc < 0 then tc + n else tc) then (1 : ℚ) else 0))[tc.toNat]?).getD 0 = 1
    rw [List.getElem?_map, List.getElem?_range hlt]
    show ((if ((tc.toNat : Nat) : Int) = (if tc < 0 then tc + n else tc)
      then (1 : ℚ) else 0) : ℚ) = 1
    rw [if_neg (by omega : ¬tc < 0), if_pos (by omega : ((tc.toNat : Nat) : Int) = tc)]
  · intro j hj hne
    show (((List.range n).map (fun (j' : Nat) =>
        if (j' : Int) = (if tc < 0 then tc + n else tc) then (1 : ℚ) else 0))[j]?).getD 0 = 0
    rw [List.getElem?_map, List.getElem?_range hj]
    show ((if ((j : Nat) : Int) = (if tc < 0 then tc + n else tc)
      then (1 : ℚ) else 0) : ℚ) = 0
    rw [if_neg (by omega : ¬tc < 0), if_neg (by omega : ¬((j : Nat) : Int) = tc)]
  · intro net inp tm hn'
    simp only [gradientCore, hn', buildTarget_of_range n tc hrange]

/-- The concrete one-hot seed for 3 classes and target class 1. -/
def tW6 : Tensor := ⟨[1, 3], [0, 1, 0]⟩

/-- Witness for C6: the seed for `n = 3`, `target_class = 1` holds 1.0 at
index 1. -/
theorem c6_witness : tW6.at2 1 = 1 :=
  (c6_seed_is_one_hot 3 1 tW6 (by decide) (by decide) (by decide)).2.2.1

/-- Claim C7: for a model with exactly one qualifying submodule (one
`Conv2d` with 3 input channels), given that a backward pass visits each
submodule exactly once (the autodiff collaborator's behavior for a model
that uses each layer once), the registered hook fires exactly once per
`calculate_gradient` call; and the spatial dimensions of the returned
gradient equal the input image's spatial dimensions. -/
theorem c7_one_conv_hook_fires_once (net : NetModel) (dev : String)
    (inp : PTensor) (tc : Int) (g : Tensor)
    (hone : net.submodules.countP isTargetLayer = 1)
    (htrace : ∀ seed,
      ((net.backwardTrace inp.tensor seed).map Prod.fst).Perm net.submodules)
    (hg : (calculate_gradient net dev inp tc false).1 = .ok g) :
    (∀ seed, hookFireCount net inp.tensor seed = 1) ∧
    g.shape.tail = inp.tensor.shape.drop 2 := by
  constructor
  · intro seed
    rw [hookFireCount]
    calc ((net.backwardTrace inp.tensor seed).filter
            (fun e => decide (e.1 ∈ hookedModules net))).length
        = (net.backwardTrace inp.tensor seed).countP
            (fun e => decide (e.1 ∈ hookedModules net)) :=
          (List.countP_eq_length_filter _ _).symm
      _ = ((net.backwardTrace inp.tensor seed).map Prod.fst).countP
            (fun m => decide (m ∈ hookedModules net)) := by
          rw [List.countP_map]
          rfl
      _ = net.submodules.countP (fun m => decide (m ∈ hookedModules net)) :=
          (htrace seed).countP_eq _
      _ = net.submodules.countP isTargetLayer := by
          apply List.countP_congr
          intro m hm
          simp [hookedModules, List.mem_filter, hm]
      _ = 1 := hone
  · have hsh := gradientCore_false_shape net inp.tensor tc g hg
    rw [hsh, ← List.drop_one, ← List.drop_one, List.drop_drop]

/-- Witness for C7 at the concrete model `netW` (one qualifying conv, one
backward event per submodule) and input `inpW`. -/
theorem c7_witness : hookFireCount netW inpW.tensor tW6 = 1 :=
  (c7_one_conv_hook_fires_once netW "cpu" inpW 0 gW0 (by decide)
    (fun _ => by
      show ([lin, conv3] : List NNModule).Perm netW.submodules
      decide)
    (by decide)).1 tW6

/-- Claim C8: determinism. For a fixed model, input and target class, a
second `calculate_gradient` call on the same extractor — receiving the
caller's input tensor exactly as the first call left it — returns the same
gradient as the first call. -/
theorem c8_two_calls_identical (net : NetModel) (dev : String) (inp : PTensor)
    (tc : Int) (tm : Bool) :
    (calculate_gradient net dev (calculate_gradient net dev inp tc tm).2 tc tm).1 =
      (calculate_gradient net dev inp tc tm).1 := by
  show gradientCore net (inputAfterCall inp dev).tensor tc tm =
    gradientCore net inp.tensor tc tm
  rw [inputAfterCall_tensor]

/-- Claim C9: the hook (`_record_gradient`) replaces the buffer only when
the incoming gradient's shape equals the buffer's current shape, so the
buffer's shape never changes during backward; consequently, whenever the
`take_max=False` call returns, the returned tensor's shape is the input
image's per-batch shape (`input_.shape` minus the leading batch
dimension), whether or not any hook fired. -/
theorem c9_result_has_per_batch_input_shape (net : NetModel) (dev : String)
    (inp : PTensor) (tc : Int) (g : Tensor)
    (hg : (calculate_gradient net dev inp tc false).1 = .ok g) :
    g.shape = inp.tensor.shape.tail ∧
    ∀ b gi : Tensor, (record_gradient b gi).shape = b.shape :=
  ⟨gradientCore_false_shape net inp.tensor tc g hg, record_gradient_shape⟩

/-- Witness for C9 at the concrete model `netW` and input `inpW` of shape
(1, 3, 2, 2): the returned gradient has shape (3, 2, 2). -/
theorem c9_witness : gW0.shape = inpW.tensor.shape.tail :=
  (c9_result_has_per_batch_input_shape netW "cpu" inpW 0 gW0 (by decide)).1

/-- Claim C10: when the input already lives on the extractor's compute
device, `input_.to(device)` returns the caller's own tensor object, so the
subsequent `input_.requires_grad = True` mutates it in place: after the
call the caller's tensor has `requires_grad = true`, while its values and
device are unchanged. -/
theorem c10_requires_grad_mutated_in_place (net : NetModel) (dev : String)
    (inp : PTensor) (tc : Int) (tm : Bool) (h : inp.device = dev) :
    (calculate_gradient net dev inp tc tm).2.requires_grad = true ∧
    (calculate_gradient net dev inp tc tm).2.tensor = inp.tensor ∧
    (calculate_gradient net dev inp tc tm).2.device = inp.device := by
  show (inputAfterCall inp dev).requires_grad = true ∧
    (inputAfterCall inp dev).tensor = inp.tensor ∧
    (inputAfterCall inp dev).device = inp.device
  rw [inputAfterCall, if_pos h]
  exact ⟨rfl, rfl, rfl⟩

/-- Witness for C10 at the concrete cpu-resident input `inpC5` with the
extractor device also cpu. -/
theorem c10_witness :
    (calculate_gradient netC5 "cpu" inpC5 0 false).2.requires_grad = true :=
  (c10_requires_grad_mutated_in_place netC5 "cpu" inpC5 0 false rfl).1
